import Mathlib

/-!
Verification of `src/backend/app/services/data_loader.py`.

The module loads fixed CSV datasets, renames columns per dataset, and filters
rows by region, year and period.  We embed it shallowly:

* a pandas `DataFrame` becomes `Table`: a list of column names and a list of
  rows, each row a list of cell values (`Value` is a string or an integer —
  the two cell kinds the filters compare against);
* the file system becomes an explicit argument `fs : String → Option Table`
  mapping a raw file name to the parsed CSV table when that file exists
  (`pd.read_csv` on an existing file is abstracted as the environment);
* Python exceptions become `Except DataError`;
* Python string primitives used by the source (`str.replace`, `str.title`,
  `int(...)` on strings) are embedded for the ASCII character range that the
  data uses (the source's `int()` additionally accepts non-ASCII Unicode
  decimal digits, which never occur here; its whitespace stripping is
  embedded with Python's full whitespace set).

Fuel-based recursion (fuel bounded by the input length, which every step
strictly consumes) is used where the Python loop is not structural, so every
definition evaluates by `decide`/`rfl`.
-/

namespace DataLoader

/-- Cell value of a table: CSV cells relevant to this module are strings
(for example the "Code" column) or integers (the "Year" column). -/
inductive Value where
  | str (s : String)
  | int (n : Int)
deriving DecidableEq

/-- In-memory table: named columns and ordered rows (a pandas `DataFrame`). -/
structure Table where
  columns : List String
  rows : List (List Value)
deriving DecidableEq

/-- Errors raised by the module: `FileNotFoundError` from `load_dataset`,
`ValueError` from `int(...)` on a malformed year string, and `KeyError`
from indexing a missing column. -/
inductive DataError where
  | notFound
  | parse
  | missingColumn
deriving DecidableEq

/-- Does `pat` occur at the head of the list?  (Helper for the scan of
Python's `str.replace` and substring containment.) -/
def leadsWith : List Char → List Char → Bool
  | [], _ => true
  | _ :: _, [] => false
  | c :: cs, d :: ds => (c == d) && leadsWith cs ds

/-- Does `pat` occur anywhere in the list?  (Python's `sub in col`.) -/
def hasSubstr (pat : List Char) : List Char → Bool
  | [] => pat.isEmpty
  | c :: rest => leadsWith pat (c :: rest) || hasSubstr pat rest

/-- Scan of Python's `str.replace`: leftmost non-overlapping occurrences of
`pat` are replaced by `repl`, scanning left to right.  `fuel` only bounds the
recursion; every step consumes at least one character (the patterns used by
the source are non-empty), so `fuel := length of the input` is exact. -/
def replaceGo (pat repl : List Char) : Nat → List Char → List Char
  | _, [] => []
  | 0, l => l
  | fuel + 1, c :: rest =>
    if leadsWith pat (c :: rest) then
      repl ++ replaceGo pat repl fuel (List.drop pat.length (c :: rest))
    else
      c :: replaceGo pat repl fuel rest

/-- Python's `s.replace(pat, repl)` (for the non-empty `pat` the source uses). -/
def pyReplace (s pat repl : String) : String :=
  ⟨replaceGo pat.data repl.data s.data.length s.data⟩

/-- One pass of Python's `str.title`: a cased (here: alphabetic) character is
uppercased when the previous character was not cased and lowercased when it
was; other characters pass through and reset the word boundary. -/
def titleGo : Bool → List Char → List Char
  | _, [] => []
  | prevCased, c :: rest =>
    if c.isAlpha then
      (if prevCased then c.toLower else c.toUpper) :: titleGo true rest
    else
      c :: titleGo false rest

/-- Python's `s.title()`. -/
def pyTitle (s : String) : String := ⟨titleGo false s.data⟩

/-- Pandas `df.rename(columns=m)`: every column name found in the association
list `m` is replaced by its image, all other names and all rows are kept. -/
def renameColumns (t : Table) (m : List (String × String)) : Table :=
  ⟨t.columns.map (fun c =>
      match List.lookup c m with
      | some c2 => c2
      | none => c),
   t.rows⟩

/-- Position of a column name in the header (pandas `df[name]` indexing of
our positional row representation). -/
def colIndex (name : String) : List String → Option Nat
  | [] => none
  | c :: rest => if c = name then some 0 else (colIndex name rest).map (· + 1)

/-- Python's `str` whitespace as stripped by `int(...)` (Unicode code points
with bidirectional class WS/B/S, as in CPython's `Py_UNICODE_ISSPACE`). -/
def pyIsSpace (c : Char) : Bool :=
  decide ((9 ≤ c.toNat ∧ c.toNat ≤ 13) ∨ (28 ≤ c.toNat ∧ c.toNat ≤ 31) ∨
    c.toNat = 32 ∨ c.toNat = 133 ∨ c.toNat = 160 ∨ c.toNat = 5760 ∨
    (8192 ≤ c.toNat ∧ c.toNat ≤ 8202) ∨ c.toNat = 8232 ∨ c.toNat = 8233 ∨
    c.toNat = 8239 ∨ c.toNat = 8287 ∨ c.toNat = 12288)

/-- Numeric value of an ASCII digit character. -/
def charValue (c : Char) : Nat := c.toNat - 48

/-- Digit-and-underscore loop of Python's `int(str)`: after a digit the next
character may be a digit or a single underscore followed by a digit,
anything else is a parse error.  `afterUnderscore` records that the previous
character was an underscore (so a digit must follow and a second underscore
may not). -/
def digitsCore (afterUnderscore : Bool) (acc : Nat) : List Char → Option Nat
  | [] => if afterUnderscore then none else some acc
  | c :: rest =>
    if c.isDigit then digitsCore false (10 * acc + charValue c) rest
    else if c = '_' ∧ afterUnderscore = false then digitsCore true acc rest
    else none

/-- Unsigned part of Python's `int(str)`: at least one digit, underscores
only between digits. -/
def parseNat : List Char → Option Nat
  | [] => none
  | c :: rest => if c.isDigit then digitsCore false (charValue c) rest else none

/-- Leading and trailing whitespace stripping performed by Python's `int(str)`. -/
def stripWhitespace (l : List Char) : List Char :=
  ((l.dropWhile pyIsSpace).reverse.dropWhile pyIsSpace).reverse

/-- Sign dispatch of Python's `int(str)` after whitespace stripping. -/
def signedParse : List Char → Option Int
  | [] => none
  | c :: rest =>
    if c = '+' then (parseNat rest).map (fun n => (n : Int))
    else if c = '-' then (parseNat rest).map (fun n => -(n : Int))
    else (parseNat (c :: rest)).map (fun n => (n : Int))

/-- Python's `int(s)` on the character list of `s`. -/
def pythonIntList (l : List Char) : Option Int := signedParse (stripWhitespace l)

/-- Python's `int(s)` for a string argument: optional surrounding whitespace,
optional sign, ASCII decimal digits with underscores between digits;
`none` models the `ValueError` raised otherwise. -/
def pythonIntOfString (s : String) : Option Int := pythonIntList s.data

/-- ASCII digit character for a value below ten. -/
def digitChar (d : Nat) : Char := Char.ofNat (48 + d)

/-- Fuel-driven most-significant-first decimal digit emitter
(`fuel > n` suffices: the argument strictly decreases under division by ten). -/
def natDigitsGo : Nat → Nat → List Char → List Char
  | 0, _, acc => acc
  | fuel + 1, n, acc =>
    if n < 10 then digitChar n :: acc
    else natDigitsGo fuel (n / 10) (digitChar (n % 10) :: acc)

/-- Decimal digit string of a natural number. -/
def natToString (n : Nat) : List Char := natDigitsGo (n + 1) n []

/-- Canonical decimal string representation of an integer (what Python's
`str(y)` prints for an `int`). -/
def decimalRepr : Int → String
  | Int.ofNat n => ⟨natToString n⟩
  | Int.negSucc m => ⟨'-' :: natToString (m + 1)⟩

/-- The fixed identifier-to-file mapping of `load_dataset`. -/
def dataset_mapping : List (String × String) :=
  [("mental-illnesses-prevalence", "1- mental-illnesses-prevalence.csv"),
   ("burden-disease-mental-illness", "2- burden-disease-from-each-mental-illness(1).csv"),
   ("depression-prevalence-coverage", "3- adult-population-covered-in-primary-data-on-the-prevalence-of-major-depression.csv"),
   ("mental-illnesses-coverage", "4- adult-population-covered-in-primary-data-on-the-prevalence-of-mental-illnesses.csv"),
   ("anxiety-treatment-gap", "5- anxiety-disorders-treatment-gap.csv"),
   ("us-depressive-symptoms", "6- depressive-symptoms-across-us-population.csv"),
   ("countries-with-data", "7- number-of-countries-with-primary-data-on-prevalence-of-mental-illnesses-in-the-global-burden-of-disease-study.csv")]

/-- The substring stripped by `process_prevalence_data`. -/
def prevSub : String := "disorderssharepopulation"

/-- `process_prevalence_data`: build the column mapping
`col ↦ col.replace(prevSub, "").title()` for every column containing
`prevSub` and rename with it. -/
def process_prevalence_data (t : Table) : Table :=
  renameColumns t
    ((t.columns.filter (fun col => hasSubstr prevSub.data col.data)).map
      (fun col => (col, pyTitle (pyReplace col prevSub ""))))

/-- The substring stripped by `process_burden_data`. -/
def burdenSub : String := "DALYsrateSexBothAgeAgestandardizedCause"

/-- `process_burden_data`: build the column mapping
`col ↦ col.replace(burdenSub, "").title() + "DALYs"` for every column
containing `burdenSub` and rename with it. -/
def process_burden_data (t : Table) : Table :=
  renameColumns t
    ((t.columns.filter (fun col => hasSubstr burdenSub.data col.data)).map
      (fun col => (col, pyTitle (pyReplace col burdenSub "") ++ "DALYs")))

/-- The fixed column mapping of `process_treatment_gap_data`. -/
def treatment_column_mapping : List (String × String) :=
  [("Potentiallyadequatetreatmentconditional", "AdequateTreatment"),
   ("Othertreatmentsconditional", "OtherTreatments"),
   ("Untreatedconditional", "Untreated")]

/-- `process_treatment_gap_data`: rename three fixed column names. -/
def process_treatment_gap_data (t : Table) : Table :=
  renameColumns t treatment_column_mapping

/-- `load_dataset`: resolve the identifier in the fixed mapping, look the
file up in the file system `fs`, and post-process the three special-cased
identifiers. -/
def load_dataset (fs : String → Option Table) (dataset_id : String) :
    Except DataError Table :=
  match List.lookup dataset_id dataset_mapping with
  | none => .error .notFound
  | some file_name =>
    match fs file_name with
    | none => .error .notFound
    | some df =>
      if dataset_id = "mental-illnesses-prevalence" then
        .ok (process_prevalence_data df)
      else if dataset_id = "burden-disease-mental-illness" then
        .ok (process_burden_data df)
      else if dataset_id = "anxiety-treatment-gap" then
        .ok (process_treatment_gap_data df)
      else
        .ok df

/-- The fixed region-to-country-codes mapping of `filter_by_region`. -/
def region_codes : List (String × List String) :=
  [("americas", ["USA", "CAN", "MEX", "BRA", "ARG", "COL", "PER", "CHL", "VEN", "ECU"]),
   ("europe", ["GBR", "FRA", "DEU", "ITA", "ESP", "PRT", "NLD", "BEL", "CHE", "AUT"]),
   ("asia", ["CHN", "JPN", "IND", "IDN", "PAK", "BGD", "PHL", "VNM", "THA", "MYS"]),
   ("africa", ["ZAF", "NGA", "EGY", "DZA", "MAR", "TUN", "LBY", "SDN", "ETH", "KEN"]),
   ("oceania", ["AUS", "NZL", "PNG", "FJI", "SLB", "VUT", "WSM", "TON", "KIR", "FSM"])]

/-- Pandas `df["Code"].isin(codes)` on one cell: a string cell is tested for
membership, any other cell (or a missing one) compares `False`. -/
def codeMatches : Option Value → List String → Bool
  | some (.str s), codes => codes.contains s
  | _, _ => false

/-- `filter_by_region`: identity for "global" and for unrecognized regions,
otherwise keep the rows whose "Code" cell is in the region's code list
(`KeyError` when the "Code" column is missing). -/
def filter_by_region (t : Table) (region : String) : Except DataError Table :=
  if region = "global" then .ok t
  else
    match List.lookup region region_codes with
    | none => .ok t
    | some codes =>
      match colIndex "Code" t.columns with
      | none => .error .missingColumn
      | some i => .ok ⟨t.columns, t.rows.filter (fun r => codeMatches r[i]? codes)⟩

/-- Argument of `filter_by_year`: Python's `Union[int, str]`. -/
inductive YearArg where
  | int (n : Int)
  | str (s : String)

/-- The source's `year_num = int(year) if isinstance(year, str) else year`:
a string is parsed with `int(...)`, an integer passes through. -/
def yearNum : YearArg → Option Int
  | .int n => some n
  | .str s => pythonIntOfString s

/-- `filter_by_year`: parse a string year with `int(...)` (a `ValueError`
becomes `.parse`), then keep the rows whose "Year" cell equals the value
(`KeyError` when the "Year" column is missing; pandas `==` against a cell of
another kind is `False`). -/
def filter_by_year (t : Table) (year : YearArg) : Except DataError Table :=
  match yearNum year with
  | none => .error .parse
  | some year_num =>
    match colIndex "Year" t.columns with
    | none => .error .missingColumn
    | some i =>
      .ok ⟨t.columns, t.rows.filter (fun r => decide (r[i]? = some (Value.int year_num)))⟩

/-- Pandas `df["Year"] >= n` on one cell: an integer cell is compared,
any other cell (or a missing one) does not match. -/
def yearGE : Option Value → Int → Bool
  | some (.int m), n => n ≤ m
  | _, _ => false

/-- The reference year hardcoded by `filter_by_period` (the source's local
`current_year = 2023`, a fixed constant, not wall-clock time). -/
def current_year : Int := 2023

/-- `filter_by_period`: identity for "all" and for unrecognized periods;
"recent" keeps rows with Year ≥ `current_year` − 5 and "decade" rows with
Year ≥ `current_year` − 10 (`KeyError` when the "Year" column is missing). -/
def filter_by_period (t : Table) (period : String) : Except DataError Table :=
  if period = "all" then .ok t
  else
    if period = "recent" then
      match colIndex "Year" t.columns with
      | none => .error .missingColumn
      | some i =>
        .ok ⟨t.columns, t.rows.filter (fun r => yearGE r[i]? (current_year - 5))⟩
    else if period = "decade" then
      match colIndex "Year" t.columns with
      | none => .error .missingColumn
      | some i =>
        .ok ⟨t.columns, t.rows.filter (fun r => yearGE r[i]? (current_year - 10))⟩
    else
      .ok t

/-! Helper lemmas. -/

/-- Facts about ASCII digit characters, uniformly for every value below ten. -/
theorem digitChar_spec (m : Nat) (hm : m < 10) :
    (digitChar m).isDigit = true ∧ charValue (digitChar m) = m ∧
    pyIsSpace (digitChar m) = false ∧ digitChar m ≠ '_' ∧
    digitChar m ≠ '+' ∧ digitChar m ≠ '-' := by
  interval_cases m <;> exact ⟨rfl, rfl, rfl, by decide, by decide, by decide⟩

/-- Accumulator step of decimal parsing. -/
def accDigit (a : Nat) (c : Char) : Nat := 10 * a + charValue c

/-- `digitsCore` on a list of plain digit characters is the left fold of the
decimal accumulator. -/
theorem digitsCore_eq_foldl :
    ∀ l : List Char, (∀ c ∈ l, ∃ m, m < 10 ∧ c = digitChar m) →
      ∀ acc, digitsCore false acc l = some (List.foldl accDigit acc l) := by
  intro l
  induction l with
  | nil => intro _ acc; rfl
  | cons c rest ih =>
    intro hl acc
    obtain ⟨m, hm, rfl⟩ := hl c (List.mem_cons_self c rest)
    have spec := digitChar_spec m hm
    simp only [digitsCore]
    rw [if_pos spec.1, List.foldl_cons]
    exact ih (fun d hd => hl d (List.mem_cons_of_mem _ hd)) (accDigit acc (digitChar m))

/-- Every character emitted by `natDigitsGo` (over a digit accumulator) is a
digit character. -/
theorem natDigitsGo_all :
    ∀ fuel n acc, (∀ c ∈ acc, ∃ m, m < 10 ∧ c = digitChar m) →
      ∀ c ∈ natDigitsGo fuel n acc, ∃ m, m < 10 ∧ c = digitChar m := by
  intro fuel
  induction fuel with
  | zero => intro n acc h; simpa [natDigitsGo] using h
  | succ fuel ih =>
    intro n acc h c hc
    by_cases h10 : n < 10
    · simp only [natDigitsGo, if_pos h10] at hc
      rcases List.mem_cons.mp hc with e | hacc
      · exact ⟨n, h10, e⟩
      · exact h c hacc
    · simp only [natDigitsGo, if_neg h10] at hc
      refine ih (n / 10) _ ?_ c hc
      intro d hd
      rcases List.mem_cons.mp hd with e | hacc
      · exact ⟨n % 10, Nat.mod_lt n (by omega), e⟩
      · exact h d hacc

/-- `natDigitsGo` emits at least one character when the fuel dominates. -/
theorem natDigitsGo_ne_nil :
    ∀ fuel n acc, n < fuel → natDigitsGo fuel n acc ≠ [] := by
  intro fuel
  induction fuel with
  | zero => intro n acc h; omega
  | succ fuel ih =>
    intro n acc h
    by_cases h10 : n < 10
    · simp only [natDigitsGo, if_pos h10]
      exact List.cons_ne_nil _ _
    · simp only [natDigitsGo, if_neg h10]
      refine ih (n / 10) _ ?_
      have : n / 10 < n := Nat.div_lt_self (by omega) (by omega)
      omega

/-- Folding the decimal accumulator over the digits of `n` recovers `n`. -/
theorem foldl_natDigitsGo :
    ∀ fuel n acc, n < fuel →
      List.foldl accDigit 0 (natDigitsGo fuel n acc) = List.foldl accDigit n acc := by
  intro fuel
  induction fuel with
  | zero => intro n acc h; omega
  | succ fuel ih =>
    intro n acc h
    by_cases h10 : n < 10
    · simp only [natDigitsGo, if_pos h10, List.foldl_cons]
      have e : accDigit 0 (digitChar n) = n := by
        unfold accDigit
        rw [(digitChar_spec n h10).2.1]
        omega
      rw [e]
    · simp only [natDigitsGo, if_neg h10]
      have hdiv : n / 10 < fuel := by
        have : n / 10 < n := Nat.div_lt_self (by omega) (by omega)
        omega
      rw [ih (n / 10) _ hdiv, List.foldl_cons]
      have e : accDigit (n / 10) (digitChar (n % 10)) = n := by
        unfold accDigit
        rw [(digitChar_spec (n % 10) (Nat.mod_lt n (by omega))).2.1]
        omega
      rw [e]

/-- Parsing the decimal digit string of `n` yields `n`. -/
theorem parseNat_natToString (n : Nat) : parseNat (natToString n) = some n := by
  have hall : ∀ c ∈ natToString n, ∃ m, m < 10 ∧ c = digitChar m :=
    natDigitsGo_all (n + 1) n [] (by intro c hc; cases hc)
  have hne : natToString n ≠ [] := natDigitsGo_ne_nil (n + 1) n [] (by omega)
  cases heq : natToString n with
  | nil => exact absurd heq hne
  | cons c rest =>
    obtain ⟨m, hm, hcm⟩ := hall c (by rw [heq]; exact List.mem_cons_self c rest)
    have hdig : c.isDigit = true := by rw [hcm]; exact (digitChar_spec m hm).1
    have hrest : ∀ d ∈ rest, ∃ m2, m2 < 10 ∧ d = digitChar m2 := by
      intro d hd
      exact hall d (by rw [heq]; exact List.mem_cons_of_mem c hd)
    simp only [parseNat]
    rw [if_pos hdig, digitsCore_eq_foldl rest hrest (charValue c)]

    have e : List.foldl accDigit (charValue c) rest = List.foldl accDigit 0 (c :: rest) := by
      rw [List.foldl_cons]
      have : accDigit 0 c = charValue c := by unfold accDigit; omega
      rw [this]
    have hf : List.foldl accDigit 0 (natToString n) = n := by
      unfold natToString
      rw [foldl_natDigitsGo (n + 1) n [] (by omega)]
      rfl
    rw [e, ← heq, hf]

/-- Dropping by a predicate no element satisfies is the identity. -/
theorem dropWhile_eq_self_of_all {α : Type} (p : α → Bool) (l : List α)
    (h : ∀ c ∈ l, p c = false) : l.dropWhile p = l := by
  cases l with
  | nil => rfl
  | cons c rest =>
    rw [List.dropWhile_cons, h c (List.mem_cons_self c rest)]
    simp

/-- Whitespace stripping is the identity on a list with no whitespace. -/
theorem stripWhitespace_of_all (l : List Char) (h : ∀ c ∈ l, pyIsSpace c = false) :
    stripWhitespace l = l := by
  unfold stripWhitespace
  rw [dropWhile_eq_self_of_all pyIsSpace l h,
    dropWhile_eq_self_of_all pyIsSpace l.reverse
      (fun c hc => h c (List.mem_reverse.mp hc)),
    List.reverse_reverse]

/-- Python's `int` applied to the decimal representation of an integer
recovers that integer. -/
theorem pythonIntOfString_decimalRepr (y : Int) :
    pythonIntOfString (decimalRepr y) = some y := by
  cases y with
  | ofNat n =>
    have hall : ∀ c ∈ natToString n, ∃ m, m < 10 ∧ c = digitChar m :=
      natDigitsGo_all (n + 1) n [] (by intro c hc; cases hc)
    have hsp : ∀ c ∈ natToString n, pyIsSpace c = false := by
      intro c hc
      obtain ⟨m, hm, rfl⟩ := hall c hc
      exact (digitChar_spec m hm).2.2.1
    have hne : natToString n ≠ [] := natDigitsGo_ne_nil (n + 1) n [] (by omega)
    show signedParse (stripWhitespace (natToString n)) = some (Int.ofNat n)
    rw [stripWhitespace_of_all _ hsp]
    cases heq : natToString n with
    | nil => exact absurd heq hne
    | cons c rest =>
      obtain ⟨m, hm, hcm⟩ := hall c (by rw [heq]; exact List.mem_cons_self c rest)
      simp only [signedParse]
      rw [if_neg (by rw [hcm]; exact (digitChar_spec m hm).2.2.2.2.1),
        if_neg (by rw [hcm]; exact (digitChar_spec m hm).2.2.2.2.2),
        ← heq, parseNat_natToString]
      rfl
  | negSucc m =>
    have hall : ∀ c ∈ natToString (m + 1), ∃ k, k < 10 ∧ c = digitChar k :=
      natDigitsGo_all (m + 2) (m + 1) [] (by intro c hc; cases hc)
    have hsp : ∀ c ∈ '-' :: natToString (m + 1), pyIsSpace c = false := by
      intro c hc
      rcases List.mem_cons.mp hc with e | hmem
      · rw [e]; decide
      · obtain ⟨k, hk, rfl⟩ := hall c hmem
        exact (digitChar_spec k hk).2.2.1
    show signedParse (stripWhitespace ('-' :: natToString (m + 1))) = some (Int.negSucc m)
    rw [stripWhitespace_of_all _ hsp]
    have hneg : signedParse ('-' :: natToString (m + 1)) =
        (parseNat (natToString (m + 1))).map (fun n => -(n : Int)) := rfl
    rw [hneg, parseNat_natToString]
    show some (-((m + 1 : Nat) : Int)) = some (Int.negSucc m)
    rw [Int.negSucc_eq]
    push_cast
    ring_nf

/-- Bind of a success in the `Except` monad. -/
theorem except_bind_ok {ε α β : Type} (a : α) (f : α → Except ε β) :
    Except.bind (Except.ok a) f = f a := rfl

/-- Bind of a failure in the `Except` monad. -/
theorem except_bind_error {ε α β : Type} (e : ε) (f : α → Except ε β) :
    Except.bind (Except.error e) f = (Except.error e : Except ε β) := rfl

/-- Evaluation of `List.lookup` on a cons cell. -/
theorem lookup_cons_eval {β : Type} (c k : String) (v : β) (rest : List (String × β)) :
    List.lookup c ((k, v) :: rest) = if c == k then some v else List.lookup c rest := by
  cases h : (c == k) <;> simp [List.lookup, h]

/-- A key failing the filter is absent from a filtered-and-mapped
association list. -/
theorem lookup_filterMap_none (p : String → Bool) (f : String → String) (c : String)
    (hc : p c = false) :
    ∀ l : List String, List.lookup c ((l.filter p).map (fun x => (x, f x))) = none := by
  intro l
  induction l with
  | nil => rfl
  | cons a l ih =>
    rw [List.filter_cons]
    by_cases ha : p a
    · rw [if_pos ha, List.map_cons, lookup_cons_eval]
      have hba : (c == a) = false := by
        refine beq_eq_false_iff_ne.mpr ?_
        intro e
        rw [e, ha] at hc
        cases hc
      rw [hba, if_neg (by simp)]
      exact ih
    · rw [if_neg ha]
      exact ih

/-- A key passing the filter and present in the base list maps to its image
in a filtered-and-mapped association list. -/
theorem lookup_filterMap_some (p : String → Bool) (f : String → String) (c : String)
    (hc : p c = true) :
    ∀ l : List String, c ∈ l →
      List.lookup c ((l.filter p).map (fun x => (x, f x))) = some (f c) := by
  intro l
  induction l with
  | nil => intro h; cases h
  | cons a l ih =>
    intro hmem
    by_cases e : c = a
    · subst e
      rw [List.filter_cons, if_pos hc, List.map_cons, lookup_cons_eval]
      rw [beq_self_eq_true c, if_pos (by simp)]
    · have hl : c ∈ l := by
        rcases List.mem_cons.mp hmem with e2 | hl
        · exact absurd e2 e
        · exact hl
      rw [List.filter_cons]
      by_cases ha : p a
      · rw [if_pos ha, List.map_cons, lookup_cons_eval]
        have hba : (c == a) = false := beq_eq_false_iff_ne.mpr e
        rw [hba, if_neg (by simp)]
        exact ih hl
      · rw [if_neg ha]
        exact ih hl

/-- Pointwise description of `renameColumns`. -/
theorem renameColumns_getElem (t : Table) (m : List (String × String)) (i : Nat) :
    (renameColumns t m).columns[i]? =
      (t.columns[i]?).map (fun c =>
        match List.lookup c m with
        | some c2 => c2
        | none => c) :=
  List.getElem?_map _ _ _

/-- Pointwise description of `renameColumns` over a mapping built (as in the
source's dict comprehensions) from the columns passing a filter. -/
theorem renameColumns_filterMap_getElem (t : Table) (p : String → Bool)
    (f : String → String) (i : Nat) :
    (renameColumns t ((t.columns.filter p).map (fun x => (x, f x)))).columns[i]? =
      (t.columns[i]?).map (fun c => if p c then f c else c) := by
  rw [renameColumns_getElem]
  cases h : t.columns[i]? with
  | none => rfl
  | some col =>
    have hmem : col ∈ t.columns := List.getElem?_mem h
    cases hb : p col with
    | false =>
      simp only [Option.map_some']
      rw [lookup_filterMap_none p f col hb t.columns]
      simp [hb]
    | true =>
      simp only [Option.map_some']
      rw [lookup_filterMap_some p f col hb t.columns hmem]
      simp [hb]

/-! Claims. -/

/-- C1: for every identifier, `load_dataset` fails with the not-found error
when the identifier is outside the fixed 7-entry mapping, fails with the
not-found error when the identifier resolves to a file the file system does
not hold, and otherwise returns a table without raising. -/
theorem claim_C1 (fs : String → Option Table) (dataset_id : String) :
    dataset_mapping.length = 7
    ∧ (List.lookup dataset_id dataset_mapping = none →
        load_dataset fs dataset_id = .error .notFound)
    ∧ (∀ file_name, List.lookup dataset_id dataset_mapping = some file_name →
        fs file_name = none → load_dataset fs dataset_id = .error .notFound)
    ∧ (∀ file_name df, List.lookup dataset_id dataset_mapping = some file_name →
        fs file_name = some df → ∃ res, load_dataset fs dataset_id = .ok res) := by
  refine ⟨rfl, ?_, ?_, ?_⟩
  · intro h
    unfold load_dataset
    rw [h]
  · intro file_name h hf
    unfold load_dataset
    simp only [h, hf]
  · intro file_name df h hf
    unfold load_dataset
    simp only [h, hf]
    split_ifs <;> exact ⟨_, rfl⟩

/-- C1 witness: the three branches exercised on concrete inputs. -/
theorem claim_C1_witness :
    load_dataset (fun _ => none) "unknown-id" = .error .notFound
    ∧ load_dataset (fun _ => none) "mental-illnesses-prevalence" = .error .notFound
    ∧ (∃ res, load_dataset (fun _ => some ⟨["Entity"], []⟩) "anxiety-treatment-gap"
        = .ok res) :=
  ⟨(claim_C1 (fun _ => none) "unknown-id").2.1 rfl,
   (claim_C1 (fun _ => none) "mental-illnesses-prevalence").2.2.1 _ rfl rfl,
   (claim_C1 (fun _ => some ⟨["Entity"], []⟩) "anxiety-treatment-gap").2.2.2 _ _ rfl rfl⟩

/-- C2 counterexample: a column whose name is the 49-character string below
contains the prevalence substring, is renamed, and the renamed result
"Xdisorderssharepopulation" contains the substring again — removing the
middle occurrence splices the surrounding fragments into a fresh occurrence
that title-casing leaves lowercase because it sits mid-word.  This refutes
the claim's consequent that no result column name contains the substring. -/
theorem claim_C2_counterexample :
    (process_prevalence_data
        ⟨["Xdisorderssharepopuldisorderssharepopulationation"], []⟩).columns
      = ["Xdisorderssharepopulation"]
    ∧ hasSubstr prevSub.data "Xdisorderssharepopulation".data = true := ⟨rfl, rfl⟩

/-- C2 (amended): the prevalence transform renames every column containing
the substring to the title-cased form of the name with the substring's
leftmost non-overlapping occurrences removed, and leaves every other column
name (and all rows) unchanged; columns left unchanged contain no occurrence
of the substring, but a renamed column may contain one again. -/
theorem claim_C2 (t : Table) :
    (process_prevalence_data t).rows = t.rows
    ∧ (∀ (i : Nat), (process_prevalence_data t).columns[i]? =
        (t.columns[i]?).map (fun col =>
          if hasSubstr prevSub.data col.data then pyTitle (pyReplace col prevSub "")
          else col))
    ∧ (∀ (i : Nat) (col : String), t.columns[i]? = some col → hasSubstr prevSub.data col.data = false →
        (process_prevalence_data t).columns[i]? = some col) := by
  have hpt : ∀ i, (process_prevalence_data t).columns[i]? =
      (t.columns[i]?).map (fun col =>
        if hasSubstr prevSub.data col.data then pyTitle (pyReplace col prevSub "")
        else col) :=
    fun i => renameColumns_filterMap_getElem t
      (fun col => hasSubstr prevSub.data col.data)
      (fun col => pyTitle (pyReplace col prevSub "")) i
  refine ⟨rfl, hpt, ?_⟩
  intro i col h hc
  rw [hpt i, h]
  simp [hc]

/-- C2 witness: on a table with one matching and one clean column the
transform rewrites the first and keeps the second. -/
theorem claim_C2_witness :
    (process_prevalence_data ⟨["Anxietydisorderssharepopulation", "Year"], []⟩).rows = []
    ∧ (process_prevalence_data ⟨["Anxietydisorderssharepopulation", "Year"], []⟩).columns[0]?
        = some "Anxiety"
    ∧ (process_prevalence_data ⟨["Anxietydisorderssharepopulation", "Year"], []⟩).columns[1]?
        = some "Year" := by
  have h := claim_C2 ⟨["Anxietydisorderssharepopulation", "Year"], []⟩
  exact ⟨h.1, ((h.2.1 0).trans (by rfl)), h.2.2 1 "Year" rfl rfl⟩

/-- C3: the burden transform renames every column containing the burden
substring to the title-cased stripped name with the literal suffix "DALYs"
appended (so every transformed name ends in "DALYs"), leaves every other
column name (and all rows) unchanged. -/
theorem claim_C3 (t : Table) :
    (process_burden_data t).rows = t.rows
    ∧ (∀ (i : Nat), (process_burden_data t).columns[i]? =
        (t.columns[i]?).map (fun col =>
          if hasSubstr burdenSub.data col.data then
            pyTitle (pyReplace col burdenSub "") ++ "DALYs"
          else col))
    ∧ (∀ (i : Nat) (col : String), t.columns[i]? = some col → hasSubstr burdenSub.data col.data = true →
        ∃ stem, (process_burden_data t).columns[i]? = some (stem ++ "DALYs"))
    ∧ (∀ (i : Nat) (col : String), t.columns[i]? = some col → hasSubstr burdenSub.data col.data = false →
        (process_burden_data t).columns[i]? = some col) := by
  have hpt : ∀ i, (process_burden_data t).columns[i]? =
      (t.columns[i]?).map (fun col =>
        if hasSubstr burdenSub.data col.data then
          pyTitle (pyReplace col burdenSub "") ++ "DALYs"
        else col) :=
    fun i => renameColumns_filterMap_getElem t
      (fun col => hasSubstr burdenSub.data col.data)
      (fun col => pyTitle (pyReplace col burdenSub "") ++ "DALYs") i
  refine ⟨rfl, hpt, ?_, ?_⟩
  · intro i col h hc
    refine ⟨pyTitle (pyReplace col burdenSub ""), ?_⟩
    rw [hpt i, h]
    simp [hc]
  · intro i col h hc
    rw [hpt i, h]
    simp [hc]

/-- C3 witness: a matching column gains the "DALYs" suffix, a clean column
is untouched. -/
theorem claim_C3_witness :
    (process_burden_data
        ⟨["DepressionDALYsrateSexBothAgeAgestandardizedCause", "Year"], []⟩).rows = []
    ∧ (∃ stem, (process_burden_data
        ⟨["DepressionDALYsrateSexBothAgeAgestandardizedCause", "Year"], []⟩).columns[0]?
          = some (stem ++ "DALYs"))
    ∧ (process_burden_data
        ⟨["DepressionDALYsrateSexBothAgeAgestandardizedCause", "Year"], []⟩).columns[1]?
        = some "Year" := by
  have h := claim_C3 ⟨["DepressionDALYsrateSexBothAgeAgestandardizedCause", "Year"], []⟩
  exact ⟨h.1, h.2.2.1 0 "DepressionDALYsrateSexBothAgeAgestandardizedCause" rfl rfl,
    h.2.2.2 1 "Year" rfl rfl⟩

/-- C4: the treatment-gap transform renames exactly the three fixed column
names to their fixed targets when present and leaves every other column
name (and all rows) unchanged. -/
theorem claim_C4 (t : Table) :
    (process_treatment_gap_data t).rows = t.rows
    ∧ (∀ (i : Nat), (process_treatment_gap_data t).columns[i]? =
        (t.columns[i]?).map (fun col =>
          if col = "Potentiallyadequatetreatmentconditional" then "AdequateTreatment"
          else if col = "Othertreatmentsconditional" then "OtherTreatments"
          else if col = "Untreatedconditional" then "Untreated"
          else col))
    ∧ (∀ (i : Nat) (col : String), t.columns[i]? = some col →
        col ≠ "Potentiallyadequatetreatmentconditional" →
        col ≠ "Othertreatmentsconditional" → col ≠ "Untreatedconditional" →
        (process_treatment_gap_data t).columns[i]? = some col) := by
  have hpt : ∀ (i : Nat), (process_treatment_gap_data t).columns[i]? =
      (t.columns[i]?).map (fun col =>
        if col = "Potentiallyadequatetreatmentconditional" then "AdequateTreatment"
        else if col = "Othertreatmentsconditional" then "OtherTreatments"
        else if col = "Untreatedconditional" then "Untreated"
        else col) := by
    intro i
    rw [show (process_treatment_gap_data t).columns[i]?
        = (renameColumns t treatment_column_mapping).columns[i]? from rfl,
      renameColumns_getElem]
    cases h : t.columns[i]? with
    | none => rfl
    | some col =>
      simp only [Option.map_some']
      by_cases e1 : col = "Potentiallyadequatetreatmentconditional"
      · simp [e1, treatment_column_mapping, List.lookup]
      · by_cases e2 : col = "Othertreatmentsconditional"
        · simp [e2, treatment_column_mapping, List.lookup]
        · by_cases e3 : col = "Untreatedconditional"
          · simp [e3, treatment_column_mapping, List.lookup]
          · simp [treatment_column_mapping, List.lookup, beq_eq_false_iff_ne.mpr e1,
              beq_eq_false_iff_ne.mpr e2, beq_eq_false_iff_ne.mpr e3, e1, e2, e3]
  refine ⟨rfl, hpt, ?_⟩
  intro i col h h1 h2 h3
  rw [hpt i, h]
  simp [h1, h2, h3]

/-- C4 witness: each of the three fixed names is renamed, a fourth name is
untouched. -/
theorem claim_C4_witness :
    (process_treatment_gap_data
        ⟨["Potentiallyadequatetreatmentconditional", "Othertreatmentsconditional",
          "Untreatedconditional", "Entity"], []⟩).rows = []
    ∧ (process_treatment_gap_data
        ⟨["Potentiallyadequatetreatmentconditional", "Othertreatmentsconditional",
          "Untreatedconditional", "Entity"], []⟩).columns[0]? = some "AdequateTreatment"
    ∧ (process_treatment_gap_data
        ⟨["Potentiallyadequatetreatmentconditional", "Othertreatmentsconditional",
          "Untreatedconditional", "Entity"], []⟩).columns[1]? = some "OtherTreatments"
    ∧ (process_treatment_gap_data
        ⟨["Potentiallyadequatetreatmentconditional", "Othertreatmentsconditional",
          "Untreatedconditional", "Entity"], []⟩).columns[2]? = some "Untreated"
    ∧ (process_treatment_gap_data
        ⟨["Potentiallyadequatetreatmentconditional", "Othertreatmentsconditional",
          "Untreatedconditional", "Entity"], []⟩).columns[3]? = some "Entity" := by
  have h := claim_C4 ⟨["Potentiallyadequatetreatmentconditional",
    "Othertreatmentsconditional", "Untreatedconditional", "Entity"], []⟩
  exact ⟨h.1, (h.2.1 0).trans (by rfl), (h.2.1 1).trans (by rfl),
    (h.2.1 2).trans (by rfl),
    h.2.2 3 "Entity" rfl (by decide) (by decide) (by decide)⟩

/-- C5: `filter_by_region` is the identity for "global", keeps exactly the
rows whose "Code" cell is in the region's fixed code list for every
recognized region (the "americas" list being the ten codes shown), and is
the identity for every unrecognized region string. -/
theorem claim_C5 (t : Table) :
    filter_by_region t "global" = .ok t
    ∧ (∀ (region : String) (codes : List String) (i : Nat),
        List.lookup region region_codes = some codes →
        colIndex "Code" t.columns = some i →
        filter_by_region t region =
          .ok ⟨t.columns, t.rows.filter (fun r => codeMatches r[i]? codes)⟩)
    ∧ (∀ (region : String), region ≠ "global" →
        List.lookup region region_codes = none → filter_by_region t region = .ok t)
    ∧ List.lookup "americas" region_codes =
        some ["USA", "CAN", "MEX", "BRA", "ARG", "COL", "PER", "CHL", "VEN", "ECU"] := by
  refine ⟨?_, ?_, ?_, rfl⟩
  · unfold filter_by_region
    rw [if_pos rfl]
  · intro region codes i hl hc
    have hg : region ≠ "global" := by
      intro e
      rw [e] at hl
      rw [show List.lookup "global" region_codes = none from rfl] at hl
      cases hl
    unfold filter_by_region
    rw [if_neg hg]
    simp only [hl, hc]
  · intro region hg hl
    unfold filter_by_region
    rw [if_neg hg]
    simp only [hl]

/-- C5 witness: on a two-row table, "americas" keeps the "USA" row and drops
the "GBR" row. -/
theorem claim_C5_witness :
    filter_by_region ⟨["Code"], [[Value.str "USA"], [Value.str "GBR"]]⟩ "americas"
      = .ok ⟨["Code"], [[Value.str "USA"]]⟩ := by
  have h := (claim_C5 ⟨["Code"], [[Value.str "USA"], [Value.str "GBR"]]⟩).2.1 "americas"
    ["USA", "CAN", "MEX", "BRA", "ARG", "COL", "PER", "CHL", "VEN", "ECU"] 0 rfl rfl
  exact h.trans (by rfl)

/-- C6: `filter_by_region` is idempotent: applying it again to a successful
result (composition in the exception monad) changes nothing, for every table
and every region string. -/
theorem claim_C6 (t : Table) (region : String) :
    Except.bind (filter_by_region t region) (fun u => filter_by_region u region)
      = filter_by_region t region := by
  by_cases hg : region = "global"
  · have h1 : filter_by_region t region = .ok t := by
      unfold filter_by_region
      rw [if_pos hg]
    rw [h1, except_bind_ok]
    exact h1
  · cases hl : List.lookup region region_codes with
    | none =>
      have h1 : filter_by_region t region = .ok t := by
        unfold filter_by_region
        rw [if_neg hg]
        simp only [hl]
      rw [h1, except_bind_ok]
      exact h1
    | some codes =>
      cases hc : colIndex "Code" t.columns with
      | none =>
        have h1 : filter_by_region t region = .error .missingColumn := by
          unfold filter_by_region
          rw [if_neg hg]
          simp only [hl, hc]
        rw [h1, except_bind_error]
      | some i =>
        have h1 : filter_by_region t region =
            .ok ⟨t.columns, t.rows.filter (fun r => codeMatches r[i]? codes)⟩ := by
          unfold filter_by_region
          rw [if_neg hg]
          simp only [hl, hc]
        rw [h1, except_bind_ok]
        show filter_by_region ⟨t.columns, t.rows.filter (fun r => codeMatches r[i]? codes)⟩
            region = _
        unfold filter_by_region
        rw [if_neg hg]
        simp only [hl, hc]
        rw [List.filter_filter]
        simp only [Bool.and_self]

/-- C7: `filter_by_year` treats the decimal string form of a year and the
integer year identically, and keeps exactly the rows whose "Year" cell
equals that year. -/
theorem claim_C7 (t : Table) (y : Int) (i : Nat)
    (h : colIndex "Year" t.columns = some i) :
    filter_by_year t (.str (decimalRepr y)) = filter_by_year t (.int y)
    ∧ filter_by_year t (.int y) =
        .ok ⟨t.columns, t.rows.filter (fun r => decide (r[i]? = some (Value.int y)))⟩ := by
  constructor
  · unfold filter_by_year
    rw [show yearNum (.str (decimalRepr y)) = some y from pythonIntOfString_decimalRepr y]
    rfl
  · unfold filter_by_year
    simp only [show yearNum (.int y) = some y from rfl, h]

/-- C7 witness: the literal string "2020" and the integer 2020 filter a
concrete table the same way, keeping exactly the 2020 row. -/
theorem claim_C7_witness :
    filter_by_year ⟨["Year"], [[Value.int 2020], [Value.int 2019]]⟩ (.str "2020")
      = filter_by_year ⟨["Year"], [[Value.int 2020], [Value.int 2019]]⟩ (.int 2020)
    ∧ filter_by_year ⟨["Year"], [[Value.int 2020], [Value.int 2019]]⟩ (.int 2020)
      = .ok ⟨["Year"], [[Value.int 2020]]⟩ := by
  have h := claim_C7 ⟨["Year"], [[Value.int 2020], [Value.int 2019]]⟩ 2020 0 rfl
  have e : decimalRepr 2020 = "2020" := rfl
  exact ⟨e ▸ h.1, h.2.trans (by rfl)⟩

/-- C8: on a string argument that is not a valid Python integer literal,
`filter_by_year` fails with the parse error for every table. -/
theorem claim_C8 (t : Table) (s : String) (h : pythonIntOfString s = none) :
    filter_by_year t (.str s) = .error .parse := by
  unfold filter_by_year
  simp only [show yearNum (.str s) = pythonIntOfString s from rfl, h]

/-- C8 witness: the non-numeric string "20x20" makes the filter fail. -/
theorem claim_C8_witness :
    filter_by_year ⟨["Year"], [[Value.int 2020]]⟩ (.str "20x20") = .error .parse :=
  claim_C8 ⟨["Year"], [[Value.int 2020]]⟩ "20x20" rfl

/-- C9: `filter_by_period` is the identity for "all", keeps exactly the rows
with Year ≥ 2018 for "recent" and Year ≥ 2013 for "decade" (the fixed
reference year 2023 minus 5 and 10 — no clock is consulted), and is the
identity for every other period string. -/
theorem claim_C9 (t : Table) :
    filter_by_period t "all" = .ok t
    ∧ (∀ (i : Nat), colIndex "Year" t.columns = some i →
        filter_by_period t "recent" =
          .ok ⟨t.columns, t.rows.filter (fun r => yearGE r[i]? 2018)⟩
        ∧ filter_by_period t "decade" =
          .ok ⟨t.columns, t.rows.filter (fun r => yearGE r[i]? 2013)⟩)
    ∧ (∀ (period : String), period ≠ "all" → period ≠ "recent" → period ≠ "decade" →
        filter_by_period t period = .ok t) := by
  refine ⟨?_, ?_, ?_⟩
  · unfold filter_by_period
    rw [if_pos rfl]
  · intro i hi
    constructor
    · unfold filter_by_period
      rw [if_neg (by decide : ¬("recent" = "all")), if_pos rfl]
      simp only [hi]
      simp only [show current_year - 5 = (2018 : Int) from by decide]
    · unfold filter_by_period
      rw [if_neg (by decide : ¬("decade" = "all")),
        if_neg (by decide : ¬("decade" = "recent")), if_pos rfl]
      simp only [hi]
      simp only [show current_year - 10 = (2013 : Int) from by decide]
  · intro period h1 h2 h3
    unfold filter_by_period
    rw [if_neg h1, if_neg h2, if_neg h3]

/-- C9 witness: "all" and an unknown period keep a concrete table whole,
"recent" keeps exactly the rows from 2018 on, "decade" those from 2013 on. -/
theorem claim_C9_witness :
    filter_by_period ⟨["Year"], [[Value.int 2020], [Value.int 2015], [Value.int 2010]]⟩
        "all" = .ok ⟨["Year"], [[Value.int 2020], [Value.int 2015], [Value.int 2010]]⟩
    ∧ filter_by_period ⟨["Year"], [[Value.int 2020], [Value.int 2015], [Value.int 2010]]⟩
        "recent" = .ok ⟨["Year"], [[Value.int 2020]]⟩
    ∧ filter_by_period ⟨["Year"], [[Value.int 2020], [Value.int 2015], [Value.int 2010]]⟩
        "decade" = .ok ⟨["Year"], [[Value.int 2020], [Value.int 2015]]⟩
    ∧ filter_by_period ⟨["Year"], [[Value.int 2020], [Value.int 2015], [Value.int 2010]]⟩
        "sometime" = .ok ⟨["Year"], [[Value.int 2020], [Value.int 2015], [Value.int 2010]]⟩ := by
  have h := claim_C9 ⟨["Year"], [[Value.int 2020], [Value.int 2015], [Value.int 2010]]⟩
  exact ⟨h.1, ((h.2.1 0 rfl).1).trans (by rfl), ((h.2.1 0 rfl).2).trans (by rfl),
    h.2.2 "sometime" (by decide) (by decide) (by decide)⟩

/-- C10: whenever one of the three filters succeeds, the result has exactly
the input's columns in the same order, and its rows are a sublist of the
input's rows (each output row is an input row, in the original order). -/
theorem claim_C10 :
    (∀ (t : Table) (region : String) (t2 : Table), filter_by_region t region = .ok t2 →
      t2.columns = t.columns ∧ List.Sublist t2.rows t.rows)
    ∧ (∀ (t : Table) (year : YearArg) (t2 : Table), filter_by_year t year = .ok t2 →
      t2.columns = t.columns ∧ List.Sublist t2.rows t.rows)
    ∧ (∀ (t : Table) (period : String) (t2 : Table), filter_by_period t period = .ok t2 →
      t2.columns = t.columns ∧ List.Sublist t2.rows t.rows) := by
  refine ⟨?_, ?_, ?_⟩
  · intro t region t2 h
    unfold filter_by_region at h
    by_cases hg : region = "global"
    · rw [if_pos hg] at h
      injection h with h2
      subst h2
      exact ⟨rfl, List.Sublist.refl t.rows⟩
    · rw [if_neg hg] at h
      cases hl : List.lookup region region_codes with
      | none =>
        simp only [hl] at h
        injection h with h2
        subst h2
        exact ⟨rfl, List.Sublist.refl t.rows⟩
      | some codes =>
        simp only [hl] at h
        cases hc : colIndex "Code" t.columns with
        | none =>
          simp only [hc] at h
          exact Except.noConfusion h
        | some i =>
          simp only [hc] at h
          injection h with h2
          subst h2
          exact ⟨rfl, List.filter_sublist t.rows⟩
  · intro t year t2 h
    unfold filter_by_year at h
    cases hy : yearNum year with
    | none =>
      simp only [hy] at h
      exact Except.noConfusion h
    | some yn =>
      simp only [hy] at h
      cases hc : colIndex "Year" t.columns with
      | none =>
        simp only [hc] at h
        exact Except.noConfusion h
      | some i =>
        simp only [hc] at h
        injection h with h2
        subst h2
        exact ⟨rfl, List.filter_sublist t.rows⟩
  · intro t period t2 h
    unfold filter_by_period at h
    split_ifs at h with h1 h2 h3
    · injection h with h2
      subst h2
      exact ⟨rfl, List.Sublist.refl t.rows⟩
    · cases hc : colIndex "Year" t.columns with
      | none =>
        simp only [hc] at h
        exact Except.noConfusion h
      | some i =>
        simp only [hc] at h
        injection h with h4
        subst h4
        exact ⟨rfl, List.filter_sublist t.rows⟩
    · cases hc : colIndex "Year" t.columns with
      | none =>
        simp only [hc] at h
        exact Except.noConfusion h
      | some i =>
        simp only [hc] at h
        injection h with h4
        subst h4
        exact ⟨rfl, List.filter_sublist t.rows⟩
    · injection h with h4
      subst h4
      exact ⟨rfl, List.Sublist.refl t.rows⟩

/-- C10 witness: the three filters on concrete tables preserve columns and
return sublists of the rows. -/
theorem claim_C10_witness :
    (Table.columns ⟨["Code"], []⟩ = Table.columns ⟨["Code"], [[Value.str "USA"]]⟩
      ∧ List.Sublist (Table.rows ⟨["Code"], []⟩)
          (Table.rows ⟨["Code"], [[Value.str "USA"]]⟩))
    ∧ (Table.columns ⟨["Year"], [[Value.int 2020]]⟩
        = Table.columns ⟨["Year"], [[Value.int 2020]]⟩
      ∧ List.Sublist (Table.rows ⟨["Year"], [[Value.int 2020]]⟩)
          (Table.rows ⟨["Year"], [[Value.int 2020]]⟩))
    ∧ (Table.columns ⟨["Year"], []⟩ = Table.columns ⟨["Year"], [[Value.int 2000]]⟩
      ∧ List.Sublist (Table.rows ⟨["Year"], []⟩)
          (Table.rows ⟨["Year"], [[Value.int 2000]]⟩)) :=
  ⟨claim_C10.1 ⟨["Code"], [[Value.str "USA"]]⟩ "europe" ⟨["Code"], []⟩ (by rfl),
   claim_C10.2.1 ⟨["Year"], [[Value.int 2020]]⟩ (.int 2020)
     ⟨["Year"], [[Value.int 2020]]⟩ (by rfl),
   claim_C10.2.2 ⟨["Year"], [[Value.int 2000]]⟩ "recent" ⟨["Year"], []⟩ (by rfl)⟩

end DataLoader
